import Mathlib

/-!
Shallow embedding of `src/netlify/functions/api.js` (nps-mapping-ap-):
the column-mapping and data-normalization pipeline of the serverless
parse-file service, together with the save endpoints.

External collaborators (the LLM inference service, the HS-code lookup
service, the XLSX encoder) are modelled as explicit parameters: an
`Except`-valued service outcome for the inference calls, a per-row
outcome function for the HS-code lookup, and an abstract encoder for
the spreadsheet writer.  Everything else is translated directly from
the JavaScript source.
-/

namespace NpsMapping

/-- A JavaScript cell value as produced by the CSV/XLSX decoders. -/
inductive JsVal where
  | vstr (s : String)
  | vnum (n : Int)
  | vbool (b : Bool)
  | vnull
deriving DecidableEq, Repr

/-- JavaScript truthiness of a cell value. -/
def jsTruthy : JsVal → Bool
  | .vstr s => s != ""
  | .vnum n => n != 0
  | .vbool b => b
  | .vnull => false

/-- Embedding of the source expression `row[sourceField]?.toString().trim() || ''`
for a defined cell value (`null` short-circuits the optional chain to
`undefined`, and `undefined || ''` is `''`). -/
def jsToStringTrim : JsVal → String
  | .vstr s => s.trim
  | .vnum n => toString n
  | .vbool b => if b then "true" else "false"
  | .vnull => ""

/-- A JavaScript object with values of type `α`: ordered key/value pairs,
keys unique (lookup returns the first match). -/
def aget {α : Type} : List (String × α) → String → Option α
  | [], _ => none
  | (k', v') :: rest, k => if k' = k then some v' else aget rest k

/-- JavaScript property assignment `o[k] = v`: updates the value in place
when the key exists, otherwise appends the pair. -/
def aset {α : Type} : List (String × α) → String → α → List (String × α)
  | [], k, v => [(k, v)]
  | (k', v') :: rest, k, v =>
    if k' = k then (k', v) :: rest else (k', v') :: aset rest k v

/-- A decoded source row: original header → raw cell value. -/
abbrev Row := List (String × JsVal)

/-- A transformed target row: target field name → string value. -/
abbrev Obj := List (String × String)

/-- One entry of the `targetFields` configuration array. -/
structure TargetField where
  name : String
  validation : String
deriving DecidableEq, Repr

/-- The fixed `targetFields` configuration array from the source
(41 entries, including the duplicated street/house/appartment block and
the duplicated receiver-address block). -/
def targetFields : List TargetField := [
  ⟨"IEW number", "string"⟩,
  ⟨"Sender type", "enum:1,2"⟩,
  ⟨"Sender full name", "string"⟩,
  ⟨"Sender contact name", "string"⟩,
  ⟨"Sender phones", "phone"⟩,
  ⟨"Sender email", "email"⟩,
  ⟨"Sender postcode", "postcode"⟩,
  ⟨"Sender country", "string"⟩,
  ⟨"Sender region", "string"⟩,
  ⟨"Sender city", "string"⟩,
  ⟨"Sender address", "string"⟩,
  ⟨"street", "string"⟩,
  ⟨"house", "string"⟩,
  ⟨"appartment", "string"⟩,
  ⟨"Cost (TOP)", "decimal"⟩,
  ⟨"Currency (TOP)", "string"⟩,
  ⟨"Receiver type", "enum:1,2"⟩,
  ⟨"Receiver full name", "string"⟩,
  ⟨"Receiver contact name", "string"⟩,
  ⟨"Receiver phones", "phone"⟩,
  ⟨"Receiver email", "email"⟩,
  ⟨"Receiver postcode", "postcode"⟩,
  ⟨"Receiver country", "string"⟩,
  ⟨"Receiver region", "string"⟩,
  ⟨"Receiver city", "string"⟩,
  ⟨"Receiver address", "string"⟩,
  ⟨"street", "string"⟩,
  ⟨"house", "string"⟩,
  ⟨"appartment", "string"⟩,
  ⟨"IOSS number", "string"⟩,
  ⟨"Incoterms", "string"⟩,
  ⟨"Invoice description", "string"⟩,
  ⟨"Full description", "string"⟩,
  ⟨"Place description", "string"⟩,
  ⟨"Actual weight, kg", "decimal"⟩,
  ⟨"Related order", "string"⟩,
  ⟨"Receiver postcode", "postcode"⟩,
  ⟨"Receiver country", "string"⟩,
  ⟨"Receiver region", "string"⟩,
  ⟨"Receiver city", "string"⟩,
  ⟨"Receiver address", "string"⟩]

/-- Embedding of `targetFieldNames = targetFields.map(field => field.name)`. -/
def targetFieldNames : List String := targetFields.map TargetField.name

/-- Function `getProductNameColumn`: returns `result.productColumn` from the
inference service; a service failure is caught, logged and re-thrown as
`Error('Error identifying product name column')`.  The service outcome
(parsed response or thrown error) is the explicit argument. -/
def getProductNameColumn (svc : Except String (Option String)) :
    Except String (Option String) :=
  match svc with
  | .ok r => .ok r
  | .error _ => .error "Error identifying product name column"

/-- Outcome of one HS-code lookup call: an HTTP response
(status plus the three levels of `response.data`, `response.data.data`,
`response.data.data.hsCode`, each possibly absent/falsy) or a transport
error rejected by axios. -/
inductive HsOutcome where
  | response (status : Nat) (body : Option (Option (Option String)))
  | transportError (msg : String)
deriving DecidableEq, Repr

/-- Function `getHSCode`: `validateStatus` accepts 200–499 (anything else throws and
is caught, returning `''`); a 404, falsy `response.data` or status ≥ 400
returns `''`; reading `data.data.hsCode` through an absent `data.data`
throws and is caught, returning `''`; otherwise `hsCode || ''`. -/
def getHSCode : HsOutcome → String
  | .transportError _ => ""
  | .response status body =>
    if ¬ (200 ≤ status ∧ status < 500) then ""
    else if status = 404 ∨ body = none ∨ 400 ≤ status then ""
    else
      match body with
      | some (some (some c)) => if c = "" then "" else c
      | _ => ""

/-- The source expression `x || ''` on a string. -/
def orEmpty (s : String) : String := if s = "" then "" else s

/-- The `reverseMapping` build: `for (const [oldKey, newKey] of Object.entries(mapping))
reverseMapping[newKey] = oldKey` — later entries overwrite earlier ones. -/
def buildReverseMapping (mapping : List (String × String)) : Obj :=
  mapping.foldl (fun acc p => aset acc p.2 p.1) []

/-- The `template` object: every target field name initialized to `''`. -/
def rowTemplate : Obj :=
  targetFieldNames.foldl (fun acc f => aset acc f "") []

/-- One iteration of the field-mapping loop inside `transformData`:
`const sourceField = reverseMapping[targetField];
if (sourceField && row[sourceField] !== undefined)
newRow[targetField] = row[sourceField]?.toString().trim() || ''`.
The `sourceField &&` guard makes a falsy (empty-string) source header
skip the write, exactly like a missing reverse-mapping entry. -/
def mapFieldsStep (rev : Obj) (row : Row) (acc : Obj) (tf : String) : Obj :=
  match aget rev tf with
  | some sf =>
    if sf = "" then acc
    else
      match aget row sf with
      | some v => aset acc tf (jsToStringTrim v)
      | none => acc
  | none => acc

/-- The `newRow` object after `{...template}` and the field-mapping loop, before the
HS-code step. -/
def baseRow (rev : Obj) (row : Row) : Obj :=
  targetFieldNames.foldl (mapFieldsStep rev row) rowTemplate

/-- The per-row body of `data.map(async (row, index) => ...)` in
`transformData`: copy the template, run the field-mapping loop, then, if
the product column is truthy and the row's product cell truthy, attach
`newRow['HS_Code'] = hsCode || ''` from the row's lookup outcome. -/
def transformRow (pc : Option String) (hsRow : JsVal → HsOutcome)
    (rev : Obj) (row : Row) : Obj :=
  match pc with
  | some p =>
    if p = "" then baseRow rev row
    else
      match aget row p with
      | some v =>
        if jsTruthy v then
          aset (baseRow rev row) "HS_Code" (orEmpty (getHSCode (hsRow v)))
        else baseRow rev row
      | none => baseRow rev row
  | none => baseRow rev row

/-- The mapped rows of `transformData`, carrying the running row index that
`data.map((row, index) => ...)` supplies; the lookup collaborator is indexed
by row so each row's outbound call has an independent outcome. -/
def transformRowsFrom (pc : Option String) (hs : Nat → JsVal → HsOutcome)
    (rev : Obj) : Nat → List Row → List Obj
  | _, [] => []
  | i, row :: rest =>
    transformRow pc (hs i) rev row :: transformRowsFrom pc hs rev (i + 1) rest

/-- One element of `hsCodesColumn`. -/
structure HsRec where
  productName : JsVal
  hsCode : String
  rowIndex : Nat
deriving DecidableEq, Repr

/-- The `hsCodesColumn` entries pushed during the mapped pass, in row order
(the concurrent `Promise.all` may interleave pushes; no claim concerns the
order of this list). -/
def hsRecsOf (pc : Option String) (hs : Nat → JsVal → HsOutcome) :
    Nat → List Row → List HsRec
  | _, [] => []
  | i, row :: rest =>
    (match pc with
     | some p =>
       if p = "" then []
       else
         match aget row p with
         | some v =>
           if jsTruthy v then [⟨v, orEmpty (getHSCode (hs i v)), i⟩] else []
         | none => []
     | none => []) ++ hsRecsOf pc hs (i + 1) rest

/-- First pass over the dataset: the `uniqueUnmappedColumns` set, a JS `Set`
preserving insertion (first-seen) order, collecting every source header that
is absent from the mapping and has a truthy value somewhere. -/
def addUnmapped (mapping : List (String × String)) (acc : List String)
    (cell : String × JsVal) : List String :=
  if cell.1 ∉ mapping.map Prod.fst ∧ jsTruthy cell.2 = true ∧ cell.1 ∉ acc
  then acc ++ [cell.1] else acc

/-- The `uniqueUnmappedColumns` set for the whole dataset. -/
def uniqueUnmappedColumns (mapping : List (String × String))
    (data : List Row) : List String :=
  data.foldl (fun acc row => row.foldl (addUnmapped mapping) acc) []

/-- The `columnRenameMap` build: `Array.from(uniqueUnmappedColumns).forEach(
(columnName, index) => map[columnName] = unmappedColumn(index+1))`. -/
def renameEntries : Nat → List String → Obj
  | _, [] => []
  | i, c :: rest =>
    (c, "unmappedColumn" ++ toString (i + 1)) :: renameEntries (i + 1) rest

/-- The alias table, computed once per request. -/
def columnRenameMap (mapping : List (String × String)) (data : List Row) :
    Obj :=
  renameEntries 0 (uniqueUnmappedColumns mapping data)

/-- Second pass: `unmappedColumns.push({ [columnRenameMap[columnName]]:
value })` for every truthy unmapped cell (a missing alias would coerce to
the key `"undefined"`, which the first pass makes unreachable). -/
def emitUnmapped (mapping : List (String × String)) (rm : Obj)
    (acc : List (String × JsVal)) (cell : String × JsVal) :
    List (String × JsVal) :=
  if cell.1 ∉ mapping.map Prod.fst ∧ jsTruthy cell.2 = true
  then acc ++ [((aget rm cell.1).getD "undefined", cell.2)] else acc

/-- The `unmappedColumns` array for the whole dataset. -/
def unmappedColumnsOf (mapping : List (String × String)) (data : List Row) :
    List (String × JsVal) :=
  data.foldl
    (fun acc row => row.foldl (emitUnmapped mapping (columnRenameMap mapping data)) acc)
    []

/-- The object returned by `transformData`. -/
structure TransformResult where
  transformedData : List Obj
  unmappedColumns : List (String × JsVal)
  emptyFields : List String
  productColumn : Option String
  hsCodesColumn : List HsRec
deriving DecidableEq, Repr

/-- Function `transformData(data, mapping, originalHeaders)`: awaits the
product-column identification (whose failure propagates), builds the
reverse mapping and template, maps every row, computes the unmapped-column
side channel, and returns `emptyFields` as the full `targetFieldNames`
list.  `svcProduct` is the identification outcome and `hs` the per-row
lookup collaborator. -/
def transformData (svcProduct : Except String (Option String))
    (hs : Nat → JsVal → HsOutcome) (mapping : List (String × String))
    (data : List Row) : Except String TransformResult :=
  match getProductNameColumn svcProduct with
  | .error e => .error e
  | .ok pc =>
    .ok
      { transformedData := transformRowsFrom pc hs (buildReverseMapping mapping) 0 data
        unmappedColumns := unmappedColumnsOf mapping data
        emptyFields := targetFieldNames
        productColumn := pc
        hsCodesColumn := hsRecsOf pc hs 0 data }

/-- Response body of `POST /parse-file`. -/
structure ParseFileResponse where
  data : List Obj
  unmappedColumns : List (String × JsVal)
  emptyFields : List String
deriving DecidableEq, Repr

/-- Header extraction `headers = Object.keys(data[0])`: on an empty dataset `data[0]` is
`undefined` and `Object.keys` throws a `TypeError`. -/
def headersOfData : List Row → Except String (List String)
  | [] => .error "Cannot convert undefined or null to object"
  | row :: _ => .ok (row.map Prod.fst)

/-- Function `getColumnMapping`: an inference-service failure is caught and
re-thrown with a fixed message; the service outcome is the argument. -/
def getColumnMapping (svc : Except String (List (String × String))) :
    Except String (List (String × String)) :=
  match svc with
  | .ok m => .ok m
  | .error _ => .error "Помилка при отриманні маппінгу колонок"

/-- The `POST /parse-file` handler after decoding: extract headers from
`data[0]`, obtain the mapping, run `transformData`, and answer with
`{data, unmappedColumns, emptyFields}`; any thrown error becomes the 500
response carrying the error message. -/
def parseFilePipeline (svcMapping : Except String (List (String × String)))
    (svcProduct : Except String (Option String))
    (hs : Nat → JsVal → HsOutcome) (data : List Row) :
    Except String ParseFileResponse :=
  match headersOfData data with
  | .error e => .error e
  | .ok _ =>
    match getColumnMapping svcMapping with
    | .error e => .error e
    | .ok mapping =>
      match transformData svcProduct hs mapping data with
      | .error e => .error e
      | .ok r => .ok ⟨r.transformedData, r.unmappedColumns, r.emptyFields⟩

/-- Predicate `Except.isOk` written out, to state at a glance that a request
succeeded or failed. -/
def exceptIsOk {ε α : Type} : Except ε α → Bool
  | .ok _ => true
  | .error _ => false

/-- A parsed JSON value, as delivered by the body parser to the save
endpoints. -/
inductive JsonVal where
  | jnull
  | jbool (b : Bool)
  | jnum (n : Int)
  | jstr (s : String)
  | jarr (xs : List JsonVal)
  | jobj (fields : List (String × JsonVal))
deriving Repr

/-- JavaScript truthiness of a JSON value (arrays and objects are always
truthy). -/
def jvTruthy : JsonVal → Bool
  | .jnull => false
  | .jbool b => b
  | .jnum n => n != 0
  | .jstr s => s != ""
  | .jarr _ => true
  | .jobj _ => true

/-- Property access `body.k`: `undefined` (`none`) unless `body` is an
object carrying the key. -/
def jvGet : JsonVal → String → Option JsonVal
  | .jobj fields, k => aget fields k
  | _, _ => none

/-- Embedding of `Array.isArray`. -/
def isJsArray : JsonVal → Bool
  | .jarr _ => true
  | _ => false

mutual

/-- Template-literal stringification of a JSON value, as in
`` `${templateName}.xlsx` ``: an array joins its elements with commas
(null elements displaying as empty), an object shows `[object Object]`. -/
def jvDisplay : JsonVal → String
  | .jnull => "null"
  | .jbool b => if b then "true" else "false"
  | .jnum n => toString n
  | .jstr s => s
  | .jarr xs => String.intercalate "," (jvDisplayElems xs)
  | .jobj _ => "[object Object]"

/-- Element stringification inside `Array.prototype.join`: `null` and
`undefined` elements become the empty string. -/
def jvDisplayElems : List JsonVal → List String
  | [] => []
  | .jnull :: xs => "" :: jvDisplayElems xs
  | x :: xs => jvDisplay x :: jvDisplayElems xs

end

/-- Response body of the save endpoints. -/
structure SaveResponse where
  data : String
  filename : String
  contentType : String
deriving DecidableEq, Repr

/-- The fixed spreadsheet content type returned by both save endpoints. -/
def xlsxContentType : String :=
  "application/vnd.openxmlformats-officedocument.spreadsheetml.sheet"

/-- Endpoint `POST /parse-file/save`: reject a missing/falsy body or `data` field,
reject a non-array `data`, otherwise serialize through `createExcelBuffer`
(abstracted as `enc`) and answer with `filename: 'data.xlsx'`. -/
def saveHandler (enc : List JsonVal → String) (body : Option JsonVal) :
    Except String SaveResponse :=
  match body with
  | none => .error "Дані не було надано"
  | some b =>
    if jvTruthy b = false then .error "Дані не було надано"
    else
      match jvGet b "data" with
      | none => .error "Дані не було надано"
      | some d =>
        if jvTruthy d = false then .error "Дані не було надано"
        else
          match d with
          | .jarr rows => .ok ⟨enc rows, "data.xlsx", xlsxContentType⟩
          | _ => .error "Дані мають неправильний формат"

/-- Endpoint `POST /parse-file/save/templates`: same validation plus a required
truthy `templateName`, answering with `filename` interpolated from the
template name. -/
def saveTemplatesHandler (enc : List JsonVal → String)
    (body : Option JsonVal) : Except String SaveResponse :=
  match body with
  | none => .error "Дані не було надано"
  | some b =>
    if jvTruthy b = false then .error "Дані не було надано"
    else
      match jvGet b "data" with
      | none => .error "Дані не було надано"
      | some d =>
        if jvTruthy d = false then .error "Дані не було надано"
        else
          match d with
          | .jarr rows =>
            match jvGet b "templateName" with
            | none => .error "Назва шаблону відсутня"
            | some t =>
              if jvTruthy t = false then .error "Назва шаблону відсутня"
              else .ok ⟨enc rows, jvDisplay t ++ ".xlsx", xlsxContentType⟩
          | _ => .error "Дані мають неправильний формат"

/-! ## Association-list lemmas -/

theorem aget_aset {α : Type} (o : List (String × α)) (k k' : String) (v : α) :
    aget (aset o k v) k' = if k = k' then some v else aget o k' := by
  induction o with
  | nil =>
    by_cases h : k = k' <;> simp [aset, aget, h]
  | cons p rest ih =>
    obtain ⟨a, b⟩ := p
    by_cases hak : a = k
    · subst hak
      by_cases hk' : a = k' <;> simp [aset, aget, hk']
    · by_cases hak' : a = k'
      · subst hak'
        have hka : k ≠ a := fun h => hak h.symm
        simp [aset, aget, hak, hka]
      · simp [aset, aget, hak, hak', ih]

theorem aget_aset_self {α : Type} (o : List (String × α)) (k : String) (v : α) :
    aget (aset o k v) k = some v := by
  simp [aget_aset]

theorem aget_aset_ne {α : Type} (o : List (String × α)) (k k' : String)
    (v : α) (h : k ≠ k') : aget (aset o k v) k' = aget o k' := by
  simp [aget_aset, h]

/-- Lookup after folding constant-value `aset` over a list of keys. -/
theorem aget_foldl_aset_const (fs : List String) (acc : List (String × String))
    (tf : String) :
    aget (fs.foldl (fun a f => aset a f "") acc) tf
      = if tf ∈ fs then some "" else aget acc tf := by
  induction fs generalizing acc with
  | nil => simp
  | cons f fs ih =>
    by_cases hf : tf ∈ fs
    · simp [List.foldl_cons, ih, hf]
    · by_cases hft : f = tf
      · subst hft
        simp [List.foldl_cons, ih, hf, aget_aset_self]
      · simp [List.foldl_cons, ih, hf, aget_aset_ne _ _ _ _ hft,
          Ne.symm hft]

/-- The value the field-mapping loop writes for a given target field, when
it writes one (no write for a missing or falsy source header, or a missing
source cell). -/
def fieldWrite (rev : Obj) (row : Row) (tf : String) : Option String :=
  match aget rev tf with
  | some sf =>
    if sf = "" then none
    else
      match aget row sf with
      | some v => some (jsToStringTrim v)
      | none => none
  | none => none

theorem mapFieldsStep_eq (rev : Obj) (row : Row) (acc : Obj) (tf : String) :
    mapFieldsStep rev row acc tf
      = match fieldWrite rev row tf with
        | some s => aset acc tf s
        | none => acc := by
  cases hrev : aget rev tf with
  | none => simp [mapFieldsStep, fieldWrite, hrev]
  | some sf =>
    by_cases hsf : sf = ""
    · simp [mapFieldsStep, fieldWrite, hrev, hsf]
    · cases hrow : aget row sf with
      | none => simp [mapFieldsStep, fieldWrite, hrev, hrow, hsf]
      | some v => simp [mapFieldsStep, fieldWrite, hrev, hrow, hsf]

/-- Lookup after running the field-mapping loop over a list of target
fields. -/
theorem aget_foldl_mapFieldsStep (rev : Obj) (row : Row) (fs : List String)
    (acc : Obj) (tf : String) :
    aget (fs.foldl (mapFieldsStep rev row) acc) tf
      = if tf ∈ fs ∧ (fieldWrite rev row tf).isSome
        then fieldWrite rev row tf else aget acc tf := by
  induction fs generalizing acc with
  | nil => simp
  | cons f fs ih =>
    rw [List.foldl_cons, ih, mapFieldsStep_eq]
    by_cases hmem : tf ∈ fs ∧ (fieldWrite rev row tf).isSome
    · rw [if_pos hmem, if_pos ⟨List.mem_cons_of_mem f hmem.1, hmem.2⟩]
    · rw [if_neg hmem]
      by_cases hft : f = tf
      · subst hft
        cases hw : fieldWrite rev row f with
        | none =>
          simp only [hw]
          rw [if_neg]
          intro hc
          simp at hc
        | some s =>
          simp only [hw]
          rw [if_pos ⟨List.mem_cons_self f fs, by simp [hw]⟩]
          exact aget_aset_self _ _ _
      · have hnotin : ¬ (tf ∈ f :: fs ∧ (fieldWrite rev row tf).isSome) := by
          intro hc
          rcases List.mem_cons.mp hc.1 with h1 | h1
          · exact hft h1.symm
          · exact hmem ⟨h1, hc.2⟩
        rw [if_neg hnotin]
        cases hw : fieldWrite rev row f with
        | none => simp only [hw]
        | some s =>
          simp only [hw]
          exact aget_aset_ne _ _ _ _ hft

theorem aget_rowTemplate (tf : String) :
    aget rowTemplate tf = if tf ∈ targetFieldNames then some "" else none := by
  rw [rowTemplate, aget_foldl_aset_const]
  rfl

theorem hs_code_not_targetField : "HS_Code" ∉ targetFieldNames := by decide

/-- The value a target field holds after the field-mapping loop. -/
theorem aget_baseRow_target (rev : Obj) (row : Row) (tf : String)
    (htf : tf ∈ targetFieldNames) :
    aget (baseRow rev row) tf
      = some (match aget rev tf with
              | some sf =>
                if sf = "" then ""
                else
                  match aget row sf with
                  | some v => jsToStringTrim v
                  | none => ""
              | none => "") := by
  rw [baseRow, aget_foldl_mapFieldsStep]
  cases hrev : aget rev tf with
  | none => simp [fieldWrite, hrev, htf, aget_rowTemplate]
  | some sf =>
    by_cases hsf : sf = ""
    · simp [fieldWrite, hrev, hsf, htf, aget_rowTemplate]
    · cases hrow : aget row sf with
      | none => simp [fieldWrite, hrev, hrow, hsf, htf, aget_rowTemplate]
      | some v => simp [fieldWrite, hrev, hrow, hsf, htf]

/-- Lemma: `transformRow` is the base row possibly extended with an `HS_Code`
key. -/
theorem transformRow_none (hsRow : JsVal → HsOutcome) (rev : Obj)
    (row : Row) : transformRow none hsRow rev row = baseRow rev row := rfl

theorem transformRow_some (p : String) (hsRow : JsVal → HsOutcome)
    (rev : Obj) (row : Row) :
    transformRow (some p) hsRow rev row
      = if p = "" then baseRow rev row
        else
          match aget row p with
          | some v =>
            if jsTruthy v then
              aset (baseRow rev row) "HS_Code" (orEmpty (getHSCode (hsRow v)))
            else baseRow rev row
          | none => baseRow rev row := rfl

theorem transformRow_cases (pc : Option String) (hsRow : JsVal → HsOutcome)
    (rev : Obj) (row : Row) :
    transformRow pc hsRow rev row = baseRow rev row ∨
      ∃ c, transformRow pc hsRow rev row = aset (baseRow rev row) "HS_Code" c := by
  cases pc with
  | none => exact Or.inl (transformRow_none hsRow rev row)
  | some p =>
    rw [transformRow_some]
    by_cases hp : p = ""
    · rw [if_pos hp]
      exact Or.inl rfl
    · rw [if_neg hp]
      cases aget row p with
      | none => exact Or.inl rfl
      | some v =>
        by_cases htv : jsTruthy v
        · refine Or.inr ⟨orEmpty (getHSCode (hsRow v)), ?_⟩
          show (if jsTruthy v = true then
              aset (baseRow rev row) "HS_Code" (orEmpty (getHSCode (hsRow v)))
            else baseRow rev row) = _
          rw [if_pos htv]
        · refine Or.inl ?_
          show (if jsTruthy v = true then
              aset (baseRow rev row) "HS_Code" (orEmpty (getHSCode (hsRow v)))
            else baseRow rev row) = _
          rw [if_neg htv]

/-- The value a target field holds in the full transformed row: the
`HS_Code` side key never collides with a target field. -/
theorem aget_transformRow_target (pc : Option String)
    (hsRow : JsVal → HsOutcome) (rev : Obj) (row : Row) (tf : String)
    (htf : tf ∈ targetFieldNames) :
    aget (transformRow pc hsRow rev row) tf
      = some (match aget rev tf with
              | some sf =>
                if sf = "" then ""
                else
                  match aget row sf with
                  | some v => jsToStringTrim v
                  | none => ""
              | none => "") := by
  have htfne : "HS_Code" ≠ tf := by
    intro h
    rw [← h] at htf
    exact hs_code_not_targetField htf
  rcases transformRow_cases pc hsRow rev row with h | ⟨c, h⟩
  · rw [h]
    exact aget_baseRow_target rev row tf htf
  · rw [h, aget_aset_ne _ _ _ _ htfne]
    exact aget_baseRow_target rev row tf htf

/-! ## Row-sequence lemmas -/

theorem transformRowsFrom_length (pc : Option String)
    (hs : Nat → JsVal → HsOutcome) (rev : Obj) (n : Nat) (data : List Row) :
    (transformRowsFrom pc hs rev n data).length = data.length := by
  induction data generalizing n with
  | nil => rfl
  | cons row rest ih => simp [transformRowsFrom, ih]

theorem transformRowsFrom_getElem (pc : Option String)
    (hs : Nat → JsVal → HsOutcome) (rev : Obj) (data : List Row)
    (n j : Nat) :
    (transformRowsFrom pc hs rev n data)[j]?
      = (data[j]?).map (fun row => transformRow pc (hs (n + j)) rev row) := by
  induction data generalizing n j with
  | nil => simp [transformRowsFrom]
  | cons row rest ih =>
    cases j with
    | zero => simp [transformRowsFrom]
    | succ j =>
      simp only [transformRowsFrom, List.getElem?_cons_succ]
      rw [ih (n + 1) j, show n + 1 + j = n + (j + 1) by omega]

/-- Lemma: `transformData` with a successful product-column identification never
fails, and its fields are exactly the five computed pieces. -/
theorem transformData_ok (pc : Option String) (hs : Nat → JsVal → HsOutcome)
    (mapping : List (String × String)) (data : List Row) :
    transformData (.ok pc) hs mapping data
      = .ok
          { transformedData :=
              transformRowsFrom pc hs (buildReverseMapping mapping) 0 data
            unmappedColumns := unmappedColumnsOf mapping data
            emptyFields := targetFieldNames
            productColumn := pc
            hsCodesColumn := hsRecsOf pc hs 0 data } := rfl

/-! ## Sample inputs for the concrete witnesses -/

/-- A fixed enrichment collaborator whose every call fails in transport. -/
def hsDown : Nat → JsVal → HsOutcome := fun _ _ => .transportError "down"

def sampleRow : Row := [("Name", .vstr " Widget "), ("Qty", .vstr "5")]

def sampleMapping : List (String × String) := [("Name", "Sender full name")]

def sampleData : List Row := [sampleRow]

def emptyResult : TransformResult := ⟨[], [], [], none, []⟩

def sampleResult : TransformResult :=
  (transformData (.ok none) hsDown sampleMapping sampleData).toOption.getD emptyResult

/-! ## Claims -/

/-- C1: for every decoded dataset and column mapping (and any fixed,
successful product-column identification and per-row lookup collaborator),
`transformData` produces exactly one target row per source row, and the
row at every index `i` of the output is the transform of the source row at
the same index `i` (row count and order preserved). -/
theorem transformData_row_count_and_order (pc : Option String)
    (hs : Nat → JsVal → HsOutcome) (mapping : List (String × String))
    (data : List Row) (r : TransformResult) (i : Nat)
    (h : transformData (.ok pc) hs mapping data = .ok r) :
    r.transformedData.length = data.length ∧
      r.transformedData[i]?
        = (data[i]?).map
            (fun row => transformRow pc (hs i) (buildReverseMapping mapping) row) := by
  rw [transformData_ok] at h
  injection h with h
  subst h
  refine ⟨transformRowsFrom_length pc hs _ 0 data, ?_⟩
  rw [transformRowsFrom_getElem]
  simp

/-- C1 witness: on the one-row sample dataset the output has one row and
row 0 is the transform of source row 0. -/
theorem transformData_row_count_and_order_witness :
    sampleResult.transformedData.length = sampleData.length ∧
      sampleResult.transformedData[0]?
        = (sampleData[0]?).map
            (fun row =>
              transformRow none (hsDown 0) (buildReverseMapping sampleMapping) row) :=
  transformData_row_count_and_order none hsDown sampleMapping sampleData
    sampleResult 0 rfl

def emptyHeaderMapping : List (String × String) := [("", "Sender full name")]

def emptyHeaderRow : Row := [("", .vbool true)]

/-- C2 counterexample: a mapping entry whose source header is the empty
string gives the target field a reverse-mapping entry (`some ""`) and the
row a defined source cell whose stringified trimmed value is `"true"`, yet
the field does *not* receive it — the `sourceField &&` guard at the top of
the mapping loop skips the write for a falsy source header, leaving the
default `""`. -/
theorem mapped_field_empty_header_skipped :
    aget (buildReverseMapping emptyHeaderMapping) "Sender full name"
        = some "" ∧
      aget emptyHeaderRow "" = some (JsVal.vbool true) ∧
      jsToStringTrim (JsVal.vbool true) = "true" ∧
      aget (transformRow none (hsDown 0)
          (buildReverseMapping emptyHeaderMapping) emptyHeaderRow)
          "Sender full name"
        = some "" ∧
      aget (transformRow none (hsDown 0)
          (buildReverseMapping emptyHeaderMapping) emptyHeaderRow)
          "Sender full name"
        ≠ some (jsToStringTrim (JsVal.vbool true)) := by
  refine ⟨rfl, rfl, rfl, rfl, ?_⟩
  intro hc
  rw [show aget (transformRow none (hsDown 0)
      (buildReverseMapping emptyHeaderMapping) emptyHeaderRow)
      "Sender full name" = some "" from rfl] at hc
  simp [jsToStringTrim] at hc

/-- C2 (amended): every target field name is present as a key of the
produced target row; a field whose reverse-mapping entry is truthy
(a non-empty source header) and whose source cell is defined receives the
cell value stringified and trimmed (the embedding of
`row[sourceField]?.toString().trim() || ''`), and every other target field
— unmapped, mapped from an empty-string source header, or with a
missing/undefined source cell — holds the default `""`. -/
theorem transformRow_total_on_target_schema (pc : Option String)
    (hsRow : JsVal → HsOutcome) (mapping : List (String × String))
    (row : Row) (tf : String) (htf : tf ∈ targetFieldNames) :
    aget (transformRow pc hsRow (buildReverseMapping mapping) row) tf
      = some (match aget (buildReverseMapping mapping) tf with
              | some sf =>
                if sf = "" then ""
                else
                  match aget row sf with
                  | some v => jsToStringTrim v
                  | none => ""
              | none => "") :=
  aget_transformRow_target pc hsRow (buildReverseMapping mapping) row tf htf

/-- C2 witness: on the sample row, the mapped field receives the trimmed
source value and an unmapped target field stays `""`. -/
theorem transformRow_total_on_target_schema_witness :
    aget (transformRow none (hsDown 0) (buildReverseMapping sampleMapping)
        sampleRow) "Sender full name"
      = some (match aget (buildReverseMapping sampleMapping) "Sender full name" with
              | some sf =>
                if sf = "" then ""
                else
                  match aget sampleRow sf with
                  | some v => jsToStringTrim v
                  | none => ""
              | none => "") :=
  transformRow_total_on_target_schema none (hsDown 0) sampleMapping sampleRow
    "Sender full name" (by decide)

/-- C8: `transformData` is deterministic — two runs on the same source
rows, mapping and fixed enrichment collaborator yield identical
transformed-row sequences. -/
theorem transformData_deterministic (svc : Except String (Option String))
    (hs : Nat → JsVal → HsOutcome) (mapping : List (String × String))
    (data : List Row) (r₁ r₂ : TransformResult)
    (h₁ : transformData svc hs mapping data = .ok r₁)
    (h₂ : transformData svc hs mapping data = .ok r₂) :
    r₁.transformedData = r₂.transformedData := by
  rw [h₁] at h₂
  injection h₂ with h
  rw [h]

/-- C8 witness: the two runs on the sample inputs agree. -/
theorem transformData_deterministic_witness :
    sampleResult.transformedData = sampleResult.transformedData :=
  transformData_deterministic (.ok none) hsDown sampleMapping sampleData
    sampleResult sampleResult rfl rfl

/-- C10: the `emptyFields` list returned by `transformData` is always the
complete fixed target-field name list — 41 entries, including the
duplicated street/house/appartment and receiver-address names — regardless
of the dataset, mapping or lookup outcomes. -/
theorem emptyFields_constant_full_list (svc : Except String (Option String))
    (hs : Nat → JsVal → HsOutcome) (mapping : List (String × String))
    (data : List Row) (r : TransformResult)
    (h : transformData svc hs mapping data = .ok r) :
    r.emptyFields = targetFieldNames ∧
      targetFieldNames.length = 41 ∧
      targetFieldNames.count "street" = 2 ∧
      targetFieldNames.count "house" = 2 ∧
      targetFieldNames.count "appartment" = 2 ∧
      targetFieldNames.count "Receiver address" = 2 := by
  cases svc with
  | error e => exact absurd h (by simp [transformData, getProductNameColumn])
  | ok pc =>
    rw [transformData_ok] at h
    injection h with h
    subst h
    exact ⟨rfl, by decide, by decide, by decide, by decide, by decide⟩

/-- C10 witness: the sample run returns the full 41-name list. -/
theorem emptyFields_constant_full_list_witness :
    sampleResult.emptyFields = targetFieldNames ∧
      targetFieldNames.length = 41 ∧
      targetFieldNames.count "street" = 2 ∧
      targetFieldNames.count "house" = 2 ∧
      targetFieldNames.count "appartment" = 2 ∧
      targetFieldNames.count "Receiver address" = 2 :=
  emptyFields_constant_full_list (.ok none) hsDown sampleMapping sampleData
    sampleResult rfl

/-! ## Enrichment-skipping lemmas (claim C3) -/

theorem hsRecsOf_none (hs : Nat → JsVal → HsOutcome) (n : Nat)
    (data : List Row) : hsRecsOf none hs n data = [] := by
  induction data generalizing n with
  | nil => rfl
  | cons row rest ih => simp [hsRecsOf, ih]

theorem aget_baseRow_hs_code (rev : Obj) (row : Row) :
    aget (baseRow rev row) "HS_Code" = none := by
  rw [baseRow, aget_foldl_mapFieldsStep,
    if_neg (fun hc => hs_code_not_targetField hc.1), aget_rowTemplate,
    if_neg hs_code_not_targetField]

theorem mem_transformRowsFrom_none_hs_code
    (hs : Nat → JsVal → HsOutcome) (rev : Obj) (n : Nat) (data : List Row)
    (row : Obj) (hmem : row ∈ transformRowsFrom none hs rev n data) :
    aget row "HS_Code" = none := by
  induction data generalizing n with
  | nil => simp [transformRowsFrom] at hmem
  | cons r rest ih =>
    rcases List.mem_cons.mp hmem with h | h
    · rw [h, transformRow_none]
      exact aget_baseRow_hs_code rev r
    · exact ih (n + 1) h

/-- C3 counterexample: the claim also covers a *failed* product-column
identification, but a failure of the identification call propagates out of
`transformData` and fails the whole request — it does not degrade
gracefully.  Concretely, with the identification service erroring, the
parse-file pipeline returns the 500-path error. -/
theorem productColumn_failure_fails_request :
    parseFilePipeline (.ok sampleMapping) (.error "service unavailable")
        hsDown sampleData
      = .error "Error identifying product name column" := rfl

/-- C3 (amended): when product-column identification returns `null`, the
transformer degrades gracefully — enrichment is skipped entirely (no
`HS_Code` key on any row, no `hsCodesColumn` entries) and the request does
not fail; when the identification call *fails*, however, the error
propagates (re-thrown as `Error identifying product name column`) and the
request fails. -/
theorem productColumn_null_skips_enrichment (hs : Nat → JsVal → HsOutcome)
    (mapping : List (String × String)) (data : List Row)
    (r : TransformResult) (e : String) (row : Obj)
    (h : transformData (.ok none) hs mapping data = .ok r)
    (hrow : row ∈ r.transformedData) :
    r.productColumn = none ∧ r.hsCodesColumn = [] ∧
      aget row "HS_Code" = none ∧
      transformData (.error e) hs mapping data
        = .error "Error identifying product name column" := by
  rw [transformData_ok] at h
  injection h with h
  subst h
  exact ⟨rfl, hsRecsOf_none hs 0 data,
    mem_transformRowsFrom_none_hs_code hs _ 0 data row hrow, rfl⟩

def sampleOutRow : Obj := sampleResult.transformedData.getD 0 []

/-- C3 witness: on the sample dataset with a `null` identification, the one
output row carries no `HS_Code` key and the failing variant errors. -/
theorem productColumn_null_skips_enrichment_witness :
    sampleResult.productColumn = none ∧ sampleResult.hsCodesColumn = [] ∧
      aget sampleOutRow "HS_Code" = none ∧
      transformData (.error "boom") hsDown sampleMapping sampleData
        = .error "Error identifying product name column" :=
  productColumn_null_skips_enrichment hsDown sampleMapping sampleData
    sampleResult "boom" sampleOutRow rfl
    (by rw [show sampleResult.transformedData = [sampleOutRow] from rfl]
        exact List.mem_singleton.mpr rfl)

/-- C4 counterexample: on an empty decoded dataset the ingest pipeline
*does* error — header extraction evaluates `Object.keys(data[0])`, which
throws on `undefined` — so the request fails instead of returning empty
sequences. -/
theorem parseFile_empty_dataset_errors :
    parseFilePipeline (.ok sampleMapping) (.ok none) hsDown []
      = .error "Cannot convert undefined or null to object" := rfl

/-- C4 (amended): for an empty decoded dataset the Row Transformer itself
does not error: it returns empty transformed-row and unmapped-column
sequences and the (full) `emptyFields` list; the ingest endpoint, however,
fails on an empty dataset because header extraction reads the first row. -/
theorem transformData_empty_dataset (pc : Option String)
    (hs : Nat → JsVal → HsOutcome) (mapping : List (String × String)) :
    transformData (.ok pc) hs mapping []
      = .ok ⟨[], [], targetFieldNames, pc, []⟩ := rfl

/-! ## Per-row lookup failure isolation (claim C5) -/

/-- The failure shapes of one lookup call the claim enumerates: a 404, any
status ≥ 400, or a transport error. -/
def hsFailure : HsOutcome → Bool
  | .transportError _ => true
  | .response s _ => s == 404 || decide (400 ≤ s)

theorem getHSCode_response (s : Nat) (b : Option (Option (Option String))) :
    getHSCode (.response s b)
      = if ¬ (200 ≤ s ∧ s < 500) then ""
        else if s = 404 ∨ b = none ∨ 400 ≤ s then ""
        else
          match b with
          | some (some (some c)) => if c = "" then "" else c
          | _ => "" := rfl

theorem getHSCode_of_failure (o : HsOutcome) (h : hsFailure o = true) :
    getHSCode o = "" := by
  cases o with
  | transportError m => rfl
  | response s b =>
    simp only [hsFailure, Bool.or_eq_true, beq_iff_eq, decide_eq_true_eq] at h
    rw [getHSCode_response]
    by_cases h1 : 200 ≤ s ∧ s < 500
    · rw [if_neg (not_not_intro h1),
        if_pos (h.imp_right (fun hh => Or.inr hh))]
    · rw [if_pos h1]

/-- C5: a row whose lookup call returns 404, any status ≥ 400, or a
transport error gets the empty-string enrichment code; any other row's
output depends only on its own lookup outcome; and the batch never aborts
(the transform succeeds for every choice of lookup outcomes). -/
theorem hs_failure_isolated_per_row (pc : String)
    (hs hs' hs₂ : Nat → JsVal → HsOutcome)
    (mapping : List (String × String)) (data : List Row) (i j : Nat)
    (rowI : Row) (v : JsVal) (r r' : TransformResult)
    (hr : transformData (.ok (some pc)) hs mapping data = .ok r)
    (hr' : transformData (.ok (some pc)) hs' mapping data = .ok r')
    (hpc : pc ≠ "")
    (hrowI : data[i]? = some rowI)
    (hv : aget rowI pc = some v)
    (htr : jsTruthy v = true)
    (hbad : hsFailure (hs i v) = true)
    (hagree : hs' j = hs j) :
    (r.transformedData[i]?).bind (fun row => aget row "HS_Code") = some "" ∧
      r'.transformedData[j]? = r.transformedData[j]? ∧
      exceptIsOk (transformData (.ok (some pc)) hs₂ mapping data) = true := by
  rw [transformData_ok] at hr hr'
  injection hr with hr
  injection hr' with hr'
  subst hr
  subst hr'
  refine ⟨?_, ?_, rfl⟩
  · simp only [transformRowsFrom_getElem, Nat.zero_add, hrowI,
      Option.map_some', Option.some_bind]
    rw [transformRow_some, if_neg hpc, hv]
    show aget (if jsTruthy v = true then
        aset (baseRow (buildReverseMapping mapping) rowI) "HS_Code"
          (orEmpty (getHSCode (hs i v)))
      else baseRow (buildReverseMapping mapping) rowI) "HS_Code" = some ""
    rw [if_pos htr, getHSCode_of_failure _ hbad]
    exact aget_aset_self _ _ _
  · simp only [transformRowsFrom_getElem, Nat.zero_add, hagree]

/-! ## C5 witness inputs: two rows, row 0's lookup fails, row 1's works -/

def row0 : Row := [("Name", .vstr "widget"), ("Qty", .vstr "5")]

def row1 : Row := [("Name", .vstr "gadget")]

def pairData : List Row := [row0, row1]

/-- Lookup collaborator: 404 for row 0, a found code for row 1. -/
def hsA : Nat → JsVal → HsOutcome := fun i _ =>
  if i = 0 then .response 404 none
  else .response 200 (some (some (some "123456")))

/-- Variant collaborator differing from `hsA` only at row 0. -/
def hsB : Nat → JsVal → HsOutcome := fun i v =>
  if i = 0 then .transportError "connection reset" else hsA i v

def resA : TransformResult :=
  (transformData (.ok (some "Name")) hsA sampleMapping pairData).toOption.getD
    emptyResult

def resB : TransformResult :=
  (transformData (.ok (some "Name")) hsB sampleMapping pairData).toOption.getD
    emptyResult

/-- C5 witness: row 0's code is `""` after its 404, row 1 is untouched by
changing row 0's outcome, and the batch still succeeds. -/
theorem hs_failure_isolated_per_row_witness :
    (resA.transformedData[0]?).bind (fun row => aget row "HS_Code")
        = some "" ∧
      resB.transformedData[1]? = resA.transformedData[1]? ∧
      exceptIsOk (transformData (.ok (some "Name")) hsDown sampleMapping
        pairData) = true :=
  hs_failure_isolated_per_row "Name" hsA hsB hsDown sampleMapping pairData
    0 1 row0 (.vstr "widget") resA resB rfl rfl (by decide) rfl rfl
    (by decide) (by decide) (by funext v; rfl)

/-! ## Reverse-mapping collision resolution (claim C6) -/

theorem aget_foldl_reverse (m : List (String × String)) (acc : Obj)
    (t : String) :
    aget (m.foldl (fun a p => aset a p.2 p.1) acc) t
      = ((m.reverse.find? (fun p => p.2 == t)).map Prod.fst).or
          (aget acc t) := by
  induction m generalizing acc with
  | nil => simp
  | cons p m ih =>
    rw [List.foldl_cons, ih, List.reverse_cons, List.find?_append]
    cases hfind : m.reverse.find? (fun q => q.2 == t) with
    | some q => simp
    | none =>
      by_cases hpt : p.2 = t
      · rw [List.find?_cons_of_pos _ (by simp [hpt])]
        simp [aget_aset, hpt]
      · rw [List.find?_cons_of_neg _ (by simp [hpt]), List.find?_nil]
        simp [aget_aset_ne _ _ _ _ hpt]

/-- C6: the reverse-mapping entry for a target field is the source header
of the *last* mapping entry (in iteration order) whose target is that
field — last-write-wins; in particular, when two source headers map to the
same target field, the later one wins. -/
theorem reverseMapping_last_write_wins (mapping : List (String × String))
    (t : String) :
    aget (buildReverseMapping mapping) t
      = (mapping.reverse.find? (fun p => p.2 == t)).map Prod.fst := by
  rw [buildReverseMapping, aget_foldl_reverse]
  exact Option.or_none

/-! ## Unmapped-column alias table (claim C7) -/

theorem aget_renameEntries (l : List String) (i : Nat) (h : String)
    (hmem : h ∈ l) :
    aget (renameEntries i l) h
      = some ("unmappedColumn" ++ toString (i + l.indexOf h + 1)) := by
  induction l generalizing i with
  | nil => simp at hmem
  | cons c rest ih =>
    by_cases hc : c = h
    · subst hc
      simp [renameEntries, aget, List.indexOf_cons_self]
    · have hm : h ∈ rest := by
        rcases List.mem_cons.mp hmem with h1 | h1
        · exact absurd h1.symm hc
        · exact h1
      rw [renameEntries, aget, if_neg hc, ih (i + 1) hm,
        List.indexOf_cons_ne _ hc]
      have : i + 1 + rest.indexOf h + 1 = i + (rest.indexOf h).succ + 1 := by
        omega
      rw [this]

/-- Membership after running the first (`Set`-building) pass over one
row. -/
theorem mem_foldl_addUnmapped (mapping : List (String × String)) (row : Row)
    (acc : List String) (h : String) :
    h ∈ row.foldl (addUnmapped mapping) acc
      ↔ h ∈ acc ∨ ∃ v, (h, v) ∈ row ∧ h ∉ mapping.map Prod.fst ∧
          jsTruthy v = true := by
  induction row generalizing acc with
  | nil => simp
  | cons cell rest ih =>
    obtain ⟨c, cv⟩ := cell
    rw [List.foldl_cons, ih]
    by_cases hcond : c ∉ mapping.map Prod.fst ∧ jsTruthy cv = true ∧ c ∉ acc
    · rw [addUnmapped, if_pos hcond]
      simp only [List.mem_append, List.mem_cons, List.not_mem_nil, or_false,
        Prod.mk.injEq]
      constructor
      · rintro ((h1 | h1) | ⟨v, hv, hC⟩)
        · exact Or.inl h1
        · subst h1
          exact Or.inr ⟨cv, Or.inl ⟨rfl, rfl⟩, hcond.1, hcond.2.1⟩
        · exact Or.inr ⟨v, Or.inr hv, hC⟩
      · rintro (h1 | ⟨v, ⟨he1, he2⟩ | hv, hC⟩)
        · exact Or.inl (Or.inl h1)
        · exact Or.inl (Or.inr he1)
        · exact Or.inr ⟨v, hv, hC⟩
    · rw [addUnmapped, if_neg hcond]
      simp only [List.mem_cons, Prod.mk.injEq]
      constructor
      · rintro (h1 | ⟨v, hv, hC⟩)
        · exact Or.inl h1
        · exact Or.inr ⟨v, Or.inr hv, hC⟩
      · rintro (h1 | ⟨v, ⟨he1, he2⟩ | hv, hC⟩)
        · exact Or.inl h1
        · subst he1
          subst he2
          by_cases hacc : h ∈ acc
          · exact Or.inl hacc
          · exact absurd ⟨hC.1, hC.2, hacc⟩ hcond
        · exact Or.inr ⟨v, hv, hC⟩

theorem mem_foldl_addUnmapped_data (mapping : List (String × String))
    (data : List Row) (acc : List String) (h : String) :
    h ∈ data.foldl (fun a row => row.foldl (addUnmapped mapping) a) acc
      ↔ h ∈ acc ∨ ∃ row ∈ data, ∃ v, (h, v) ∈ row ∧
          h ∉ mapping.map Prod.fst ∧ jsTruthy v = true := by
  induction data generalizing acc with
  | nil => simp
  | cons row rest ih =>
    rw [List.foldl_cons, ih, mem_foldl_addUnmapped]
    simp only [List.mem_cons]
    constructor
    · rintro ((h1 | ⟨v, hv, hC⟩) | ⟨r, hr, hrest⟩)
      · exact Or.inl h1
      · exact Or.inr ⟨row, Or.inl rfl, v, hv, hC⟩
      · exact Or.inr ⟨r, Or.inr hr, hrest⟩
    · rintro (h1 | ⟨r, hr | hr, hrest⟩)
      · exact Or.inl (Or.inl h1)
      · subst hr
        exact Or.inl (Or.inr hrest)
      · exact Or.inr ⟨r, hr, hrest⟩

/-- A source header is in `uniqueUnmappedColumns` exactly when it is
unmapped and carries a truthy value somewhere in the dataset. -/
theorem mem_uniqueUnmappedColumns (mapping : List (String × String))
    (data : List Row) (h : String) :
    h ∈ uniqueUnmappedColumns mapping data
      ↔ ∃ row ∈ data, ∃ v, (h, v) ∈ row ∧ h ∉ mapping.map Prod.fst ∧
          jsTruthy v = true := by
  rw [uniqueUnmappedColumns, mem_foldl_addUnmapped_data]
  simp

/-- The per-cell emission of the second pass, as an `Option`. -/
def emitEntry (mapping : List (String × String)) (rm : Obj)
    (cell : String × JsVal) : Option (String × JsVal) :=
  if cell.1 ∉ mapping.map Prod.fst ∧ jsTruthy cell.2 = true
  then some ((aget rm cell.1).getD "undefined", cell.2) else none

theorem emitUnmapped_eq (mapping : List (String × String)) (rm : Obj)
    (acc : List (String × JsVal)) (cell : String × JsVal) :
    emitUnmapped mapping rm acc cell
      = acc ++ (emitEntry mapping rm cell).toList := by
  rw [emitUnmapped, emitEntry]
  by_cases hc : cell.1 ∉ mapping.map Prod.fst ∧ jsTruthy cell.2 = true
  · rw [if_pos hc, if_pos hc]
    rfl
  · rw [if_neg hc, if_neg hc, Option.toList_none, List.append_nil]

theorem foldl_emitUnmapped_row (mapping : List (String × String)) (rm : Obj)
    (row : Row) (acc : List (String × JsVal)) :
    row.foldl (emitUnmapped mapping rm) acc
      = acc ++ row.filterMap (emitEntry mapping rm) := by
  induction row generalizing acc with
  | nil => simp
  | cons cell rest ih =>
    rw [List.foldl_cons, ih, emitUnmapped_eq]
    cases he : emitEntry mapping rm cell with
    | none => simp [List.filterMap_cons, he]
    | some e => simp [List.filterMap_cons, he]

theorem foldl_emitUnmapped_data (mapping : List (String × String)) (rm : Obj)
    (data : List Row) (acc : List (String × JsVal)) :
    data.foldl (fun a row => row.foldl (emitUnmapped mapping rm) a) acc
      = acc ++ data.flatMap (fun row => row.filterMap (emitEntry mapping rm)) := by
  induction data generalizing acc with
  | nil => simp
  | cons row rest ih =>
    rw [List.foldl_cons, ih, foldl_emitUnmapped_row, List.flatMap_cons,
      List.append_assoc]

/-- C7: the alias table is computed once per request — each distinct
unmapped source header with a truthy value anywhere in the dataset gets
the alias `unmappedColumn<N>`, `N` its 1-based position in first-seen
order; the emitted unmapped-column entries are exactly one per truthy
unmapped cell, each keyed through that single table; and in particular the
entry for any such cell carries the header's canonical alias, identical
across all rows. -/
theorem unmapped_alias_table_stable (mapping : List (String × String))
    (data : List Row) (h : String) (v : JsVal) (row : Row) :
    (h ∈ uniqueUnmappedColumns mapping data →
       aget (columnRenameMap mapping data) h
         = some ("unmappedColumn"
             ++ toString ((uniqueUnmappedColumns mapping data).indexOf h + 1))) ∧
    (row ∈ data → (h, v) ∈ row → h ∉ mapping.map Prod.fst →
       jsTruthy v = true → h ∈ uniqueUnmappedColumns mapping data) ∧
    unmappedColumnsOf mapping data
      = data.flatMap (fun r =>
          r.filterMap (emitEntry mapping (columnRenameMap mapping data))) ∧
    (row ∈ data → (h, v) ∈ row → h ∉ mapping.map Prod.fst →
       jsTruthy v = true →
       ("unmappedColumn"
           ++ toString ((uniqueUnmappedColumns mapping data).indexOf h + 1), v)
         ∈ unmappedColumnsOf mapping data) := by
  have hA : h ∈ uniqueUnmappedColumns mapping data →
      aget (columnRenameMap mapping data) h
        = some ("unmappedColumn"
            ++ toString ((uniqueUnmappedColumns mapping data).indexOf h + 1)) := by
    intro hmem
    rw [columnRenameMap, aget_renameEntries _ 0 h hmem, Nat.zero_add]
  have hB : row ∈ data → (h, v) ∈ row → h ∉ mapping.map Prod.fst →
      jsTruthy v = true → h ∈ uniqueUnmappedColumns mapping data := by
    intro h1 h2 h3 h4
    exact (mem_uniqueUnmappedColumns mapping data h).mpr ⟨row, h1, v, h2, h3, h4⟩
  have hC : unmappedColumnsOf mapping data
      = data.flatMap (fun r =>
          r.filterMap (emitEntry mapping (columnRenameMap mapping data))) := by
    rw [unmappedColumnsOf, foldl_emitUnmapped_data, List.nil_append]
  refine ⟨hA, hB, hC, ?_⟩
  intro h1 h2 h3 h4
  rw [hC]
  refine List.mem_flatMap.mpr ⟨row, h1, List.mem_filterMap.mpr ⟨(h, v), h2, ?_⟩⟩
  rw [emitEntry, if_pos ⟨h3, h4⟩, hA (hB h1 h2 h3 h4)]
  rfl

/-- C7 witness: in the sample dataset, `Qty` is the one unmapped truthy
header; its alias is `unmappedColumn1` in the table and on the emitted
entry. -/
theorem unmapped_alias_table_stable_witness :
    aget (columnRenameMap sampleMapping sampleData) "Qty"
        = some ("unmappedColumn"
            ++ toString ((uniqueUnmappedColumns sampleMapping sampleData).indexOf "Qty" + 1)) ∧
      "Qty" ∈ uniqueUnmappedColumns sampleMapping sampleData ∧
      unmappedColumnsOf sampleMapping sampleData
        = sampleData.flatMap (fun r =>
            r.filterMap (emitEntry sampleMapping
              (columnRenameMap sampleMapping sampleData))) ∧
      ("unmappedColumn"
          ++ toString ((uniqueUnmappedColumns sampleMapping sampleData).indexOf "Qty" + 1),
        JsVal.vstr "5") ∈ unmappedColumnsOf sampleMapping sampleData := by
  have t := unmapped_alias_table_stable sampleMapping sampleData "Qty"
    (.vstr "5") sampleRow
  exact ⟨t.1 (by decide), t.2.1 (by decide) (by decide) (by decide) (by decide),
    t.2.2.1,
    t.2.2.2 (by decide) (by decide) (by decide) (by decide)⟩

/-! ## Save endpoints (claim C9) -/

/-- C9: both save endpoints reject a missing payload, a missing/falsy
`data` field, or a non-array `data` — and the templated endpoint also a
missing template name — with an error response (no spreadsheet produced);
a valid request returns the encoded workbook with the fixed spreadsheet
content type and filename `data.xlsx`, respectively
`<templateName>.xlsx`. -/
theorem save_endpoints_validation (enc : List JsonVal → String)
    (body d : JsonVal) (rows : List JsonVal) (t : String) :
    exceptIsOk (saveHandler enc none) = false ∧
    exceptIsOk (saveTemplatesHandler enc none) = false ∧
    (jvGet body "data" = none →
       exceptIsOk (saveHandler enc (some body)) = false ∧
       exceptIsOk (saveTemplatesHandler enc (some body)) = false) ∧
    (jvGet body "data" = some d → isJsArray d = false →
       exceptIsOk (saveHandler enc (some body)) = false ∧
       exceptIsOk (saveTemplatesHandler enc (some body)) = false) ∧
    (jvTruthy body = true → jvGet body "data" = some (.jarr rows) →
       saveHandler enc (some body)
         = .ok ⟨enc rows, "data.xlsx", xlsxContentType⟩) ∧
    (jvTruthy body = true → jvGet body "data" = some (.jarr rows) →
       jvGet body "templateName" = none →
       exceptIsOk (saveTemplatesHandler enc (some body)) = false) ∧
    (jvTruthy body = true → jvGet body "data" = some (.jarr rows) →
       jvGet body "templateName" = some (.jstr t) → t ≠ "" →
       saveTemplatesHandler enc (some body)
         = .ok ⟨enc rows, t ++ ".xlsx", xlsxContentType⟩) := by
  refine ⟨rfl, rfl, ?_, ?_, ?_, ?_, ?_⟩
  · intro hd
    by_cases hb : jvTruthy body = false <;>
      simp [saveHandler, saveTemplatesHandler, exceptIsOk, hb, hd]
  · intro hd hnd
    by_cases hb : jvTruthy body = false
    · simp [saveHandler, saveTemplatesHandler, exceptIsOk, hb]
    · by_cases hdt : jvTruthy d = false
      · simp [saveHandler, saveTemplatesHandler, exceptIsOk, hb, hd, hdt]
      · cases d <;>
          simp_all [saveHandler, saveTemplatesHandler, exceptIsOk, isJsArray]
  · intro hb hd
    simp [saveHandler, hb, hd, show jvTruthy (JsonVal.jarr rows) = true from rfl]
  · intro hb hd ht
    simp [saveTemplatesHandler, exceptIsOk, hb, hd, ht,
      show jvTruthy (JsonVal.jarr rows) = true from rfl]
  · intro hb hd ht hne
    simp [saveTemplatesHandler, hb, hd, ht, jvDisplay,
      show jvTruthy (JsonVal.jarr rows) = true from rfl,
      show jvTruthy (JsonVal.jstr t) = true from by simp [jvTruthy, hne]]

def encConst : List JsonVal → String := fun rows => toString rows.length

def innerRow : JsonVal := .jobj [("a", .jstr "1")]

def bodyOk : JsonVal :=
  .jobj [("data", .jarr [innerRow]), ("templateName", .jstr "tpl")]

/-- C9 witness: a valid body succeeds on both endpoints with the stated
filenames, and a missing payload fails. -/
theorem save_endpoints_validation_witness :
    saveHandler encConst (some bodyOk)
        = .ok ⟨encConst [innerRow], "data.xlsx", xlsxContentType⟩ ∧
      saveTemplatesHandler encConst (some bodyOk)
        = .ok ⟨encConst [innerRow], "tpl" ++ ".xlsx", xlsxContentType⟩ ∧
      exceptIsOk (saveHandler encConst none) = false := by
  have t := save_endpoints_validation encConst bodyOk (.jstr "x") [innerRow]
    "tpl"
  exact ⟨t.2.2.2.2.1 rfl rfl, t.2.2.2.2.2.2 rfl rfl rfl (by decide), t.1⟩

end NpsMapping
